import Mathlib

/-!
Shallow embedding of the Dragnn kernel family of `myelin/kernel/dragnn.cc`
(repository `sling`): kernel applicability predicates (`Supports`), layout
negotiation (`Adjust`), and the numerical semantics of the emitted machine
code (`Generate`) for each kernel, together with the kernel registry.

Machine state is modelled explicitly: float arithmetic is modelled by exact
rationals (so "equal up to floating-point summation order" becomes exact
equality), instance memory holding tensor contents is modelled by lists, and
emitted instruction sequences that only move bytes are modelled by their
effect on those lists.  Fatal CHECK assertions are modelled by `Option`
results (`none` = process abort).
-/

namespace Myelin

/-- Element data types (the subset of myelin types used by these kernels,
plus one extra type so that type mismatches are expressible). -/
inductive DType where
  | DT_INT32
  | DT_FLOAT
  | DT_DOUBLE
deriving DecidableEq

/-- Required memory order of a tensor (myelin `Order`). -/
inductive MemOrder where
  | ANY
  | ROW_MAJOR
  | COLUMN_MAJOR
deriving DecidableEq

/-- Tensor metadata as consulted and mutated by the kernels:
data type, shape (`dims`), reference flag and link (`set_ref` / `set_link`,
with the link recorded as the input-slot index of the linked tensor),
number of consumers, constant scalar value (`value<int32>()`, used for the
concat axis), raw byte content (`bytes`) and declared byte size (`size()`),
requested minimum alignment, per-dimension alignment granularity (`Align`),
and required memory order. -/
structure Tensor where
  type : DType
  dims : List Nat
  ref : Bool
  link : Option Nat
  consumers : Nat
  cval : Int
  bytes : List Nat
  declSize : Nat
  minAlign : Nat
  alignGran : List Nat
  order : MemOrder
deriving DecidableEq

/-- Default tensor used for out-of-range accesses to a step's input/output
lists (the C++ code never performs such accesses on supported steps). -/
def t0 : Tensor :=
  { type := DType.DT_FLOAT, dims := [], ref := false, link := none,
    consumers := 0, cval := 0, bytes := [], declSize := 0,
    minAlign := 1, alignGran := [], order := MemOrder.ANY }

/-- `Tensor::rank()`. -/
def Tensor.rank (t : Tensor) : Nat := t.dims.length

/-- `Tensor::dim(i)`. -/
def Tensor.dim (t : Tensor) (i : Nat) : Nat := t.dims.getD i 0

/-- `Tensor::elements()`: total number of elements (product of dims). -/
def Tensor.elements (t : Tensor) : Nat := t.dims.prod

/-- `Tensor::size()`: declared byte size. -/
def Tensor.size (t : Tensor) : Nat := t.declSize

/-- `Tensor::SetMiniumAlignment(a)`: raise the minimum alignment request. -/
def Tensor.setMiniumAlignment (t : Tensor) (a : Nat) : Tensor :=
  { t with minAlign := max t.minAlign a }

/-- `Tensor::SetRequiredOrder(o)`. -/
def Tensor.setRequiredOrder (t : Tensor) (o : MemOrder) : Tensor :=
  { t with order := o }

/-- `Tensor::Align(g)`: record per-dimension alignment granularity. -/
def Tensor.alignDims (t : Tensor) (g : List Nat) : Tensor :=
  { t with alignGran := g }

/-- A step (graph node): ordered input and output tensors. -/
structure Step where
  inputs : List Tensor
  outputs : List Tensor
deriving DecidableEq

/-- `Step::indegree()`. -/
def Step.indegree (s : Step) : Nat := s.inputs.length

/-- `Step::outdegree()`. -/
def Step.outdegree (s : Step) : Nat := s.outputs.length

/-- `Step::input(i)`. -/
def Step.input (s : Step) (i : Nat) : Tensor := s.inputs.getD i t0

/-- `Step::output(i)`. -/
def Step.output (s : Step) (i : Nat) : Tensor := s.outputs.getD i t0

/-- Apply a metadata update to input `i` of a step. -/
def Step.updateInput (s : Step) (i : Nat) (f : Tensor → Tensor) : Step :=
  { s with inputs := s.inputs.set i (f (s.input i)) }

/-- Apply a metadata update to output `i` of a step. -/
def Step.updateOutput (s : Step) (i : Nat) (f : Tensor → Tensor) : Step :=
  { s with outputs := s.outputs.set i (f (s.output i)) }

/-- Emitted machine instructions are opaque for the no-op kernels; only
whether any are emitted matters. -/
inductive Instr where
  | code (n : Nat)
deriving DecidableEq

/-- `DragnnInitializer::Supports`: accepts every step unconditionally. -/
def DragnnInitializer.Supports (_step : Step) : Bool := true

/-- `DragnnInitializer::Generate`: emits nothing. -/
def DragnnInitializer.Generate (_step : Step) : List Instr := []

/-- `DragnnCollect::Supports`, transcribed check for check. -/
def DragnnCollect.Supports (step : Step) : Bool :=
  if step.indegree ≠ 2 ∨ step.outdegree ≠ 1 then false else
  let f := step.input 0
  let M := step.input 1
  let R := step.output 0
  if f.type ≠ DType.DT_INT32 then false else
  if M.type ≠ DType.DT_FLOAT ∨ M.rank ≠ 2 then false else
  if R.type ≠ DType.DT_FLOAT ∨ R.rank ≠ 2 then false else
  if f.dim 0 ≠ 1 ∨ f.dim 1 ≠ R.dim 0 then false else
  if R.dim 1 ≠ M.dim 1 + 1 then false else
  true

/-- `DragnnCollect::Adjust`: row-major order for the embedding matrix and
the output. -/
def DragnnCollect.Adjust (step : Step) : Step :=
  (step.updateInput 1 (fun t => t.setRequiredOrder MemOrder.ROW_MAJOR)).updateOutput 0
    (fun t => t.setRequiredOrder MemOrder.ROW_MAJOR)

/-- `DragnnLookup::Supports`, transcribed check for check. -/
def DragnnLookup.Supports (step : Step) : Bool :=
  if step.indegree ≠ 2 ∨ step.outdegree ≠ 1 then false else
  let f := step.input 0
  let M := step.input 1
  let v := step.output 0
  if f.type ≠ DType.DT_INT32 then false else
  if M.type ≠ DType.DT_FLOAT ∨ M.rank ≠ 2 then false else
  if v.type ≠ DType.DT_FLOAT ∨ v.rank ≠ 2 then false else
  if v.dim 0 ≠ 1 ∨ v.dim 1 ≠ M.dim 1 then false else
  true

/-- `DragnnLookup::Adjust`: embedding matrix must be row-major. -/
def DragnnLookup.Adjust (step : Step) : Step :=
  step.updateInput 1 (fun t => t.setRequiredOrder MemOrder.ROW_MAJOR)

/-- `DragnnLookupSingle::Supports`: like `DragnnLookup::Supports` plus the
requirement that the feature input holds exactly one element. -/
def DragnnLookupSingle.Supports (step : Step) : Bool :=
  if step.indegree ≠ 2 ∨ step.outdegree ≠ 1 then false else
  let f := step.input 0
  let M := step.input 1
  let v := step.output 0
  if f.type ≠ DType.DT_INT32 ∨ f.elements ≠ 1 then false else
  if M.type ≠ DType.DT_FLOAT ∨ M.rank ≠ 2 then false else
  if v.type ≠ DType.DT_FLOAT ∨ v.rank ≠ 2 then false else
  if v.dim 0 ≠ 1 ∨ v.dim 1 ≠ M.dim 1 then false else
  true

/-- `DragnnLookupSingle::Adjust`: mark the output as a reference linked to
the embedding matrix (input slot 1), and require the embedding matrix to be
row-major. -/
def DragnnLookupSingle.Adjust (step : Step) : Step :=
  ((step.updateOutput 0 (fun t => { t with ref := true, link := some 1 })).updateInput 1
    (fun t => t.setRequiredOrder MemOrder.ROW_MAJOR))

/-- `DragnnLookupSingle::Generate`: the emitted code loads the feature id,
substitutes the OOV row index `M->dim(0) - 1` for any negative id (`cmovq`
on the sign flag), multiplies by the row stride, adds the embedding base
address and stores the resulting address into the output slot.  The fatal
`CHECK(!f->ref())` is modelled by `none`.  The returned value is the
pointer stored into the output tensor's slot; no tensor bytes are moved. -/
def DragnnLookupSingle.Generate (step : Step) (mBase mStride fval : Int) :
    Option Int :=
  if (step.input 0).ref then none else
  let embeddingSize : Int := ((step.input 1).dim 0 : Int) - 1
  let acc : Int := if fval < 0 then embeddingSize else fval
  some (acc * mStride + mBase)

/-- `DragnnLookupUnrolled::kBlockSize`. -/
def DragnnLookupUnrolled.kBlockSize : Nat := 8

/-- `DragnnLookupUnrolled::kMaxEmbeddingDim`. -/
def DragnnLookupUnrolled.kMaxEmbeddingDim : Nat :=
  DragnnLookupUnrolled.kBlockSize * 16

/-- `DragnnLookupUnrolled::Supports`, transcribed check for check;
`avx` is the result of the hardware capability query `CPU::Enabled(AVX)`. -/
def DragnnLookupUnrolled.Supports (avx : Bool) (step : Step) : Bool :=
  if ¬avx then false else
  if step.indegree ≠ 2 ∨ step.outdegree ≠ 1 then false else
  let f := step.input 0
  let M := step.input 1
  let v := step.output 0
  if f.type ≠ DType.DT_INT32 then false else
  if M.type ≠ DType.DT_FLOAT ∨ M.rank ≠ 2 then false else
  if v.type ≠ DType.DT_FLOAT ∨ v.rank ≠ 2 then false else
  if v.dim 0 ≠ 1 ∨ v.dim 1 ≠ M.dim 1 then false else
  let embeddingDims := M.dim 1
  if embeddingDims > DragnnLookupUnrolled.kMaxEmbeddingDim then false else
  if embeddingDims % DragnnLookupUnrolled.kBlockSize ≠ 0 then false else
  true

/-- `DragnnLookupUnrolled::Adjust`: align embedding matrix and output to
the block size (granularity `{1, 8}`, minimum alignment `8 * 4 = 32`
bytes), and require the embedding matrix to be row-major. -/
def DragnnLookupUnrolled.Adjust (step : Step) : Step :=
  ((((step.updateInput 1
      (fun t => t.alignDims [1, DragnnLookupUnrolled.kBlockSize])).updateInput 1
      (fun t => t.setMiniumAlignment (DragnnLookupUnrolled.kBlockSize * 4))).updateOutput 0
      (fun t => (t.alignDims [1, DragnnLookupUnrolled.kBlockSize]).setMiniumAlignment
        (DragnnLookupUnrolled.kBlockSize * 4))).updateInput 1
      (fun t => t.setRequiredOrder MemOrder.ROW_MAJOR))

/-- `DragnnConcat::Supports`: at least two inputs in total (the last input
is the axis), one output, and the axis constant must equal 1. -/
def DragnnConcat.Supports (step : Step) : Bool :=
  if step.indegree < 2 ∨ step.outdegree ≠ 1 then false else
  let n := step.indegree - 1
  let axis := step.input n
  if axis.cval ≠ 1 then false else
  true

/-- `DragnnConcat::Generate`: copy each data input's bytes in input order
into successive byte ranges of the output, starting at offset 0, tracking
the running offset; the final `CHECK_EQ(offset, output->size())` is
modelled by `none` on mismatch.  The returned list is the byte content
written to the output. -/
def DragnnConcat.Generate (step : Step) : Option (List Nat) :=
  let n := step.indegree - 1
  let result := (List.range n).foldl
    (fun (st : Nat × List Nat) i =>
      (st.1 + (step.input i).size, st.2 ++ (step.input i).bytes))
    (0, [])
  if result.1 = (step.output 0).size then some result.2 else none

/-- `NoOpReshape::Supports`, transcribed check for check. -/
def NoOpReshape.Supports (step : Step) : Bool :=
  if step.indegree ≠ 2 ∨ step.outdegree ≠ 1 then false else
  let x := step.input 0
  let y := step.output 0
  if x.type ≠ y.type then false else
  if x.elements ≠ y.elements then false else
  if x.consumers ≠ 1 then false else
  true

/-- `NoOpReshape::Adjust`: copy the input's reference flag to the output,
then `CHECK(step->AllowInPlace(0, 0))`; the allocator's grant decision is
the external parameter `grant`, and a denied grant is the fatal branch. -/
def NoOpReshape.Adjust (grant : Bool) (step : Step) : Option Step :=
  let adjusted := step.updateOutput 0 (fun t => { t with ref := (step.input 0).ref })
  if grant then some adjusted else none

/-- `NoOpReshape::Generate`: emits no instructions; only the fatal
`CHECK(input->SharedWith(output))` remains, with the sharing fact supplied
by the external allocator as `shared`. -/
def NoOpReshape.Generate (shared : Bool) (_step : Step) : Option (List Instr) :=
  if shared then some [] else none

/-- A flow variable as touched by the typer: element type and shape. -/
structure FlowVariable where
  vtype : DType
  shape : List Nat
deriving DecidableEq

/-- Default flow variable (never reached on the guarded path). -/
def fv0 : FlowVariable := { vtype := DType.DT_FLOAT, shape := [] }

/-- A flow operation as touched by the typer: operation type name and
declared outputs. -/
structure FlowOperation where
  type : String
  outputs : List FlowVariable
deriving DecidableEq

/-- `DragnnTyper::InferTypes`: for a `DragnnEmbeddingInitializer` operation
with exactly one output, set that output's type to `DT_INT32` and clear its
shape; always report `false` (no further inference pass requested). -/
def DragnnTyper.InferTypes (op : FlowOperation) : FlowOperation × Bool :=
  if op.type = "DragnnEmbeddingInitializer" then
    if op.outputs.length = 1 then
      ({ op with outputs :=
          op.outputs.set 0 { (op.outputs.getD 0 fv0) with vtype := DType.DT_INT32, shape := [] } },
        false)
    else (op, false)
  else (op, false)

/-- One registry entry: kernel name, logical operation, applicability. -/
structure KernelEntry where
  kname : String
  koperation : String
  accepts : Step → Bool

/-- `RegisterDragnnKernels`: registration order from the source. -/
def RegisterDragnnKernels (avx : Bool) : List KernelEntry :=
  [{ kname := "DragnnInitializerDummy", koperation := "DragnnEmbeddingInitializer",
     accepts := DragnnInitializer.Supports },
   { kname := "DragnnLookupSingle", koperation := "Lookup",
     accepts := DragnnLookupSingle.Supports },
   { kname := "DragnnLookupUnrolled", koperation := "Lookup",
     accepts := DragnnLookupUnrolled.Supports avx },
   { kname := "DragnnLookup", koperation := "Lookup",
     accepts := DragnnLookup.Supports },
   { kname := "DragnnCollect", koperation := "Collect",
     accepts := DragnnCollect.Supports },
   { kname := "DragnnConcat", koperation := "ConcatV2",
     accepts := DragnnConcat.Supports },
   { kname := "NoOpReshape", koperation := "Reshape",
     accepts := NoOpReshape.Supports }]

/-- Kernel selection: the compiler binds a node to the first registered
kernel for its operation whose `Supports` predicate succeeds. -/
def selectKernel (lib : List KernelEntry) (op : String) (step : Step) :
    Option KernelEntry :=
  lib.find? (fun k => k.koperation == op && k.accepts step)

/-! ### Numerical semantics of the emitted code

Float values are modelled by exact rationals.  A loop of the emitted code
that visits each index `i < n` once, reading slot `i` and writing slot `i`
back, is modelled by `rangeUpdate`. -/

/-- One read-modify-write of slot `i` of a list (a load / compute / store
sequence of the emitted code). -/
def setStep {α : Type} (d : α) (g : Nat → α → α) (o : List α) (i : Nat) :
    List α :=
  o.set i (g i (o.getD i d))

/-- A loop over `i = 0, …, n-1` of read-modify-write steps. -/
def rangeUpdate {α : Type} (d : α) (g : Nat → α → α) (n : Nat) (l : List α) :
    List α :=
  (List.range n).foldl (setStep d g) l

/-- The inner loop of `DragnnLookup::Generate`: for `j = 0, …, dims-1`,
`movss elem, [output + 4j]; addss elem, [row + 4j]; movss [output + 4j], elem`. -/
def addRowInto (dims : Nat) (out row : List ℚ) : List ℚ :=
  rangeUpdate 0 (fun j a => a + row.getD j 0) dims out

/-- One iteration of the feature loop of `DragnnLookup::Generate`: the id is
tested (`j positive` → use it as row index; else if it is not `-1` skip the
feature; else use the OOV row index `embeddingSize = M->dim(0) - 1`), and the
resolved row is added element-wise into the output. -/
def DragnnLookup.featureStep (embeddingSize : Nat) (M : List (List ℚ))
    (dims : Nat) (out : List ℚ) (id : Int) : List ℚ :=
  if 0 ≤ id then addRowInto dims out (M.getD id.toNat [])
  else if id = -1 then addRowInto dims out (M.getD embeddingSize [])
  else out

/-- `DragnnLookup::Generate`: the emitted code's effect on the output vector.
`M` is the embedding matrix (rows of rationals), `dims = v->dim(1)` the
embedding dimension, `features` the feature-id input, and `out` the content
of the output vector when the generated code starts running.  Note that the
emitted code never clears the output: it accumulates into it. -/
def DragnnLookup.Generate (M : List (List ℚ)) (dims : Nat)
    (features : List Int) (out : List ℚ) : List ℚ :=
  features.foldl (DragnnLookup.featureStep (M.length - 1) M dims) out

/-- The per-feature block accumulation of `DragnnLookupUnrolled::Generate`:
`vaddps sum[i], sum[i], [row + 32i]` for each block `i`, adding 8
consecutive row elements into vector register block `i`. -/
def addBlocks (blocks : Nat) (sums : List (List ℚ)) (row : List ℚ) :
    List (List ℚ) :=
  rangeUpdate [] (fun i b =>
    List.zipWith (· + ·) b ((List.range 8).map (fun k => row.getD (i * 8 + k) 0)))
    blocks sums

/-- One iteration of the feature loop of `DragnnLookupUnrolled::Generate`;
the id test is identical to the scalar kernel's. -/
def DragnnLookupUnrolled.featureStep (embeddingSize : Nat)
    (M : List (List ℚ)) (blocks : Nat) (sums : List (List ℚ)) (id : Int) :
    List (List ℚ) :=
  if 0 ≤ id then addBlocks blocks sums (M.getD id.toNat [])
  else if id = -1 then addBlocks blocks sums (M.getD embeddingSize [])
  else sums

/-- `DragnnLookupUnrolled::Generate`: the accumulator lives entirely in
vector register blocks, cleared with `vxorps` before the feature loop, and
is stored to the output with `vmovaps` once after the loop; the stored
output is the concatenation of the blocks. -/
def DragnnLookupUnrolled.Generate (M : List (List ℚ)) (dims : Nat)
    (features : List Int) : List ℚ :=
  let blocks := dims / 8
  (features.foldl (DragnnLookupUnrolled.featureStep (M.length - 1) M blocks)
    (List.replicate blocks (List.replicate 8 (0 : ℚ)))).flatten

/-- One iteration of the feature loop of `DragnnCollect::Generate` on one
output row (of width `dims + 1`): a non-negative id copies the embedding
row verbatim into the first `dims` columns (`Copy`, `dims * 4` bytes); an id
of `-1` stores the float constant `1.0` into the trailing indicator column;
any other negative id writes nothing. -/
def DragnnCollect.rowStep (M : List (List ℚ)) (dims : Nat) (out : List ℚ)
    (id : Int) : List ℚ :=
  if 0 ≤ id then
    rangeUpdate 0 (fun j _ => (M.getD id.toNat []).getD j 0) dims out
  else if id = -1 then out.set dims 1
  else out

/-- `DragnnCollect::Generate`: the emitted code's effect on the output
matrix, one row per feature id, the output pointer advancing by one row
stride per iteration. -/
def DragnnCollect.Generate (M : List (List ℚ)) (dims : Nat)
    (ids : List Int) (outRows : List (List ℚ)) : List (List ℚ) :=
  List.zipWith (fun id out => DragnnCollect.rowStep M dims out id) ids outRows

/-- The sequence of embedding-row indices actually accumulated by the
lookup kernels' id test: a non-negative id is used as a row index, `-1`
resolves to the trailing OOV row `embeddingSize`, any other negative id is
skipped. -/
def resolvedRows (embeddingSize : Nat) (features : List Int) : List Nat :=
  features.filterMap (fun id =>
    if 0 ≤ id then some id.toNat
    else if id = -1 then some embeddingSize
    else none)

/-! ### Plumbing lemmas about `rangeUpdate` -/

theorem getD_set {α : Type} (l : List α) (i j : Nat) (a d : α) :
    (l.set i a).getD j d = if i = j ∧ i < l.length then a else l.getD j d := by
  simp only [List.getD_eq_getElem?_getD, List.getElem?_set]
  by_cases hij : i = j
  · subst hij
    by_cases hlen : i < l.length
    · simp [hlen]
    · simp only [hlen, and_false, if_true, if_false, ite_self, Option.getD_none]
      rw [List.getElem?_eq_none (by omega)]
      simp
  · simp [hij]

theorem rangeUpdate_length {α : Type} (d : α) (g : Nat → α → α) (n : Nat)
    (l : List α) : (rangeUpdate d g n l).length = l.length := by
  induction n with
  | zero => rfl
  | succ m ih =>
    unfold rangeUpdate at *
    rw [List.range_succ, List.foldl_append]
    simpa [setStep] using ih

theorem rangeUpdate_succ {α : Type} (d : α) (g : Nat → α → α) (m : Nat)
    (l : List α) :
    rangeUpdate d g (m + 1) l = setStep d g (rangeUpdate d g m l) m := by
  unfold rangeUpdate
  rw [List.range_succ, List.foldl_append]
  rfl

theorem rangeUpdate_getD {α : Type} (d : α) (g : Nat → α → α) (n : Nat)
    (l : List α) (j : Nat) :
    (rangeUpdate d g n l).getD j d =
      if j < n ∧ j < l.length then g j (l.getD j d) else l.getD j d := by
  induction n with
  | zero => simp [rangeUpdate]
  | succ m ih =>
    rw [rangeUpdate_succ]
    unfold setStep
    rw [getD_set, rangeUpdate_length]
    by_cases hm2 : m = j
    · subst hm2
      by_cases hlen : m < l.length
      · rw [if_pos ⟨rfl, hlen⟩, ih, if_neg (by omega),
          if_pos ⟨Nat.lt_succ_self m, hlen⟩]
      · rw [if_neg (by tauto), ih, if_neg (by omega), if_neg (by omega)]
    · rw [if_neg (by tauto), ih]
      by_cases hjm : j < m ∧ j < l.length
      · rw [if_pos hjm, if_pos ⟨by omega, hjm.2⟩]
      · rw [if_neg hjm]
        rw [if_neg (fun hc => hjm ⟨by omega, hc.2⟩)]

/-! ### Behaviour of the scalar lookup kernel's emitted code -/

theorem addRowInto_length (dims : Nat) (out row : List ℚ) :
    (addRowInto dims out row).length = out.length :=
  rangeUpdate_length _ _ _ _

theorem addRowInto_getD (dims : Nat) (out row : List ℚ) (j : Nat) :
    (addRowInto dims out row).getD j 0 =
      if j < dims ∧ j < out.length then out.getD j 0 + row.getD j 0
      else out.getD j 0 :=
  rangeUpdate_getD _ _ _ _ _

theorem lookup_featureStep_length (es : Nat) (M : List (List ℚ))
    (dims : Nat) (out : List ℚ) (id : Int) :
    (DragnnLookup.featureStep es M dims out id).length = out.length := by
  unfold DragnnLookup.featureStep
  split_ifs <;> simp [addRowInto_length]

theorem resolvedRows_cons (es : Nat) (id : Int) (rest : List Int) :
    resolvedRows es (id :: rest) =
      (if 0 ≤ id then id.toNat :: resolvedRows es rest
       else if id = -1 then es :: resolvedRows es rest
       else resolvedRows es rest) := by
  unfold resolvedRows
  rw [List.filterMap_cons]
  split_ifs <;> rfl

theorem lookup_generate_length (M : List (List ℚ)) (dims : Nat)
    (features : List Int) (out : List ℚ) :
    (DragnnLookup.Generate M dims features out).length = out.length := by
  induction features generalizing out with
  | nil => rfl
  | cons id rest ih =>
    have hstep : DragnnLookup.Generate M dims (id :: rest) out =
        DragnnLookup.Generate M dims rest
          (DragnnLookup.featureStep (M.length - 1) M dims out id) := rfl
    rw [hstep, ih, lookup_featureStep_length]

theorem lookup_generate_getD (M : List (List ℚ)) (dims : Nat)
    (features : List Int) (out : List ℚ) (j : Nat) (hj : j < dims)
    (hlen : out.length = dims) :
    (DragnnLookup.Generate M dims features out).getD j 0 =
      out.getD j 0 + ((resolvedRows (M.length - 1) features).map
        (fun r => (M.getD r []).getD j 0)).sum := by
  induction features generalizing out with
  | nil => simp [DragnnLookup.Generate, resolvedRows]
  | cons id rest ih =>
    have hstep : DragnnLookup.Generate M dims (id :: rest) out =
        DragnnLookup.Generate M dims rest
          (DragnnLookup.featureStep (M.length - 1) M dims out id) := rfl
    rw [hstep, ih _ (by rw [lookup_featureStep_length]; exact hlen),
      resolvedRows_cons]
    unfold DragnnLookup.featureStep
    split_ifs with h0 h1
    · rw [addRowInto_getD, if_pos ⟨hj, by omega⟩, List.map_cons, List.sum_cons]
      ring
    · rw [addRowInto_getD, if_pos ⟨hj, by omega⟩, List.map_cons, List.sum_cons]
      ring
    · rfl

/-! ### Behaviour of the unrolled lookup kernel's emitted code -/

theorem blockAdd_getD (b : List ℚ) (f : Nat → ℚ) (k : Nat) (hb : b.length = 8)
    (hk : k < 8) :
    (List.zipWith (· + ·) b ((List.range 8).map f)).getD k 0 =
      b.getD k 0 + f k := by
  have h1 : k < (List.zipWith (· + ·) b ((List.range 8).map f)).length := by
    simp [hb, hk]
  rw [List.getD_eq_getElem _ _ h1, List.getElem_zipWith, List.getElem_map,
    List.getElem_range, List.getD_eq_getElem _ _ (by omega)]

theorem addBlocks_length (blocks : Nat) (sums : List (List ℚ))
    (row : List ℚ) : (addBlocks blocks sums row).length = sums.length :=
  rangeUpdate_length _ _ _ _

theorem addBlocks_getD (blocks : Nat) (sums : List (List ℚ)) (row : List ℚ)
    (i : Nat) :
    (addBlocks blocks sums row).getD i [] =
      if i < blocks ∧ i < sums.length then
        List.zipWith (· + ·) (sums.getD i [])
          ((List.range 8).map (fun k => row.getD (i * 8 + k) 0))
      else sums.getD i [] :=
  rangeUpdate_getD _ _ _ _ _

theorem unrolled_featureStep_length (es : Nat) (M : List (List ℚ))
    (blocks : Nat) (sums : List (List ℚ)) (id : Int) :
    (DragnnLookupUnrolled.featureStep es M blocks sums id).length =
      sums.length := by
  unfold DragnnLookupUnrolled.featureStep
  split_ifs <;> simp [addBlocks_length]

theorem unrolled_featureStep_blocklen (es : Nat) (M : List (List ℚ))
    (blocks : Nat) (sums : List (List ℚ)) (id : Int)
    (h : ∀ t < sums.length, ((sums.getD t ([] : List ℚ)).length = 8)) :
    ∀ t < (DragnnLookupUnrolled.featureStep es M blocks sums id).length,
      (((DragnnLookupUnrolled.featureStep es M blocks sums id).getD t []).length
        = 8) := by
  intro t ht
  rw [unrolled_featureStep_length] at ht
  unfold DragnnLookupUnrolled.featureStep
  split_ifs
  · rw [addBlocks_getD]
    split_ifs with hc
    · rw [List.length_zipWith, h t ht]
      simp
    · exact h t ht
  · rw [addBlocks_getD]
    split_ifs with hc
    · rw [List.length_zipWith, h t ht]
      simp
    · exact h t ht
  · exact h t ht

theorem unrolled_fold_length (es : Nat) (M : List (List ℚ)) (blocks : Nat)
    (features : List Int) (sums : List (List ℚ)) :
    (features.foldl (DragnnLookupUnrolled.featureStep es M blocks) sums).length
      = sums.length := by
  induction features generalizing sums with
  | nil => rfl
  | cons id rest ih =>
    rw [List.foldl_cons, ih, unrolled_featureStep_length]

theorem unrolled_fold_blocklen (es : Nat) (M : List (List ℚ)) (blocks : Nat)
    (features : List Int) :
    ∀ sums : List (List ℚ),
      (∀ t < sums.length, ((sums.getD t ([] : List ℚ)).length = 8)) →
      ∀ t < (features.foldl (DragnnLookupUnrolled.featureStep es M blocks)
              sums).length,
        (((features.foldl (DragnnLookupUnrolled.featureStep es M blocks)
            sums).getD t []).length = 8) := by
  induction features with
  | nil => intro sums h; exact h
  | cons id rest ih =>
    intro sums h
    rw [List.foldl_cons]
    exact ih _ (unrolled_featureStep_blocklen es M blocks sums id h)

theorem unrolled_fold_getD (es : Nat) (M : List (List ℚ)) (blocks : Nat)
    (features : List Int) (sums : List (List ℚ)) (i k : Nat)
    (hi : i < blocks) (hk : k < 8) (hlen : sums.length = blocks)
    (hbl : ∀ t < sums.length, ((sums.getD t ([] : List ℚ)).length = 8)) :
    ((features.foldl (DragnnLookupUnrolled.featureStep es M blocks)
        sums).getD i []).getD k 0 =
      (sums.getD i []).getD k 0 +
        ((resolvedRows es features).map
          (fun r => (M.getD r []).getD (i * 8 + k) 0)).sum := by
  induction features generalizing sums with
  | nil => simp [resolvedRows]
  | cons id rest ih =>
    rw [List.foldl_cons,
      ih _ (by rw [unrolled_featureStep_length]; exact hlen)
        (unrolled_featureStep_blocklen es M blocks sums id hbl),
      resolvedRows_cons]
    unfold DragnnLookupUnrolled.featureStep
    split_ifs with h0 h1
    · rw [addBlocks_getD, if_pos ⟨hi, by omega⟩,
        blockAdd_getD _ _ _ (hbl i (by omega)) hk, List.map_cons,
        List.sum_cons]
      ring
    · rw [addBlocks_getD, if_pos ⟨hi, by omega⟩,
        blockAdd_getD _ _ _ (hbl i (by omega)) hk, List.map_cons,
        List.sum_cons]
      ring
    · rfl

theorem flatten_length_uniform (bs : List (List ℚ))
    (h : ∀ t < bs.length, ((bs.getD t ([] : List ℚ)).length = 8)) :
    bs.flatten.length = 8 * bs.length := by
  induction bs with
  | nil => simp
  | cons b rest ih =>
    have hb : b.length = 8 := h 0 (by simp)
    have hrest : ∀ t < rest.length, ((rest.getD t ([] : List ℚ)).length = 8) := by
      intro t ht
      have := h (t + 1) (by simp; omega)
      simpa using this
    simp only [List.flatten_cons, List.length_append, List.length_cons]
    rw [hb, ih hrest]
    ring

theorem flatten_getD_uniform (bs : List (List ℚ))
    (h : ∀ t < bs.length, ((bs.getD t ([] : List ℚ)).length = 8)) (j : Nat)
    (hj : j < 8 * bs.length) :
    bs.flatten.getD j 0 = (bs.getD (j / 8) []).getD (j % 8) 0 := by
  induction bs generalizing j with
  | nil => simp at hj
  | cons b rest ih =>
    have hb : b.length = 8 := h 0 (by simp)
    have hrest : ∀ t < rest.length, ((rest.getD t ([] : List ℚ)).length = 8) := by
      intro t ht
      have := h (t + 1) (by simp; omega)
      simpa using this
    simp only [List.flatten_cons]
    by_cases hj8 : j < 8
    · rw [List.getD_append _ _ _ _ (by omega)]
      have e0 : j / 8 = 0 := by omega
      have e1 : j % 8 = j := by omega
      rw [e0, e1, List.getD_cons_zero]
    · rw [List.getD_append_right _ _ _ _ (by omega), hb]
      simp only [List.length_cons] at hj
      rw [ih hrest (j - 8) (by omega)]
      have e1 : (j - 8) / 8 = j / 8 - 1 := by omega
      have e2 : (j - 8) % 8 = j % 8 := by omega
      have e3 : j / 8 = (j / 8 - 1) + 1 := by omega
      rw [e1, e2, e3, List.getD_cons_succ]
      simp

/-! ### Step metadata plumbing for the `Adjust` proofs -/

theorem updateInput_input_self (s : Step) (i : Nat) (f : Tensor → Tensor)
    (h : i < s.inputs.length) :
    (s.updateInput i f).input i = f (s.input i) := by
  unfold Step.updateInput Step.input
  rw [getD_set, if_pos ⟨rfl, h⟩]

theorem updateInput_inputs_length (s : Step) (i : Nat) (f : Tensor → Tensor) :
    (s.updateInput i f).inputs.length = s.inputs.length := by
  unfold Step.updateInput
  simp

theorem updateInput_output (s : Step) (i j : Nat) (f : Tensor → Tensor) :
    (s.updateInput i f).output j = s.output j := rfl

theorem updateInput_outputs_length (s : Step) (i : Nat) (f : Tensor → Tensor) :
    (s.updateInput i f).outputs.length = s.outputs.length := rfl

theorem updateOutput_input (s : Step) (i j : Nat) (f : Tensor → Tensor) :
    (s.updateOutput j f).input i = s.input i := rfl

theorem updateOutput_inputs_length (s : Step) (j : Nat) (f : Tensor → Tensor) :
    (s.updateOutput j f).inputs.length = s.inputs.length := rfl

theorem updateOutput_output_self (s : Step) (j : Nat) (f : Tensor → Tensor)
    (h : j < s.outputs.length) :
    (s.updateOutput j f).output j = f (s.output j) := by
  unfold Step.updateOutput Step.output
  rw [getD_set, if_pos ⟨rfl, h⟩]

theorem updateOutput_outputs_length (s : Step) (j : Nat) (f : Tensor → Tensor) :
    (s.updateOutput j f).outputs.length = s.outputs.length := by
  unfold Step.updateOutput
  simp

/-! ### `Supports` characterizations -/

theorem collect_supports_iff (step : Step) :
    DragnnCollect.Supports step = true ↔
      (step.indegree = 2 ∧ step.outdegree = 1 ∧
       (step.input 0).type = DType.DT_INT32 ∧
       (step.input 1).type = DType.DT_FLOAT ∧ (step.input 1).rank = 2 ∧
       (step.output 0).type = DType.DT_FLOAT ∧ (step.output 0).rank = 2 ∧
       (step.input 0).dim 0 = 1 ∧
       (step.input 0).dim 1 = (step.output 0).dim 0 ∧
       (step.output 0).dim 1 = (step.input 1).dim 1 + 1) := by
  unfold DragnnCollect.Supports
  split_ifs <;> simp <;> tauto

theorem lookup_supports_iff (step : Step) :
    DragnnLookup.Supports step = true ↔
      (step.indegree = 2 ∧ step.outdegree = 1 ∧
       (step.input 0).type = DType.DT_INT32 ∧
       (step.input 1).type = DType.DT_FLOAT ∧ (step.input 1).rank = 2 ∧
       (step.output 0).type = DType.DT_FLOAT ∧ (step.output 0).rank = 2 ∧
       (step.output 0).dim 0 = 1 ∧
       (step.output 0).dim 1 = (step.input 1).dim 1) := by
  unfold DragnnLookup.Supports
  split_ifs <;> simp <;> tauto

theorem noop_supports_iff (step : Step) :
    NoOpReshape.Supports step = true ↔
      (step.indegree = 2 ∧ step.outdegree = 1 ∧
       (step.input 0).type = (step.output 0).type ∧
       (step.input 0).elements = (step.output 0).elements ∧
       (step.input 0).consumers = 1) := by
  unfold NoOpReshape.Supports
  split_ifs <;> simp <;> tauto

theorem concat_supports_iff (step : Step) :
    DragnnConcat.Supports step = true ↔
      (2 ≤ step.indegree ∧ step.outdegree = 1 ∧
       (step.input (step.indegree - 1)).cval = 1) := by
  unfold DragnnConcat.Supports
  by_cases h1 : step.indegree < 2 ∨ step.outdegree ≠ 1
  · rw [if_pos h1]
    simp only [Bool.false_eq_true, false_iff]
    intro hc
    rcases h1 with hl | ho
    · omega
    · exact ho hc.2.1
  · rw [if_neg h1]
    show (if (step.input (step.indegree - 1)).cval ≠ 1 then false else true)
        = true ↔ _
    push_neg at h1
    by_cases h2 : (step.input (step.indegree - 1)).cval ≠ 1
    · rw [if_pos h2]
      simp only [Bool.false_eq_true, false_iff]
      intro hc
      exact h2 hc.2.2
    · rw [if_neg h2]
      push_neg at h2
      simp only [true_iff]
      exact ⟨by omega, h1.2, h2⟩

theorem unrolled_supports_iff (avx : Bool) (step : Step) :
    DragnnLookupUnrolled.Supports avx step = true ↔
      (avx = true ∧ step.indegree = 2 ∧ step.outdegree = 1 ∧
       (step.input 0).type = DType.DT_INT32 ∧
       (step.input 1).type = DType.DT_FLOAT ∧ (step.input 1).rank = 2 ∧
       (step.output 0).type = DType.DT_FLOAT ∧ (step.output 0).rank = 2 ∧
       (step.output 0).dim 0 = 1 ∧
       (step.output 0).dim 1 = (step.input 1).dim 1 ∧
       (step.input 1).dim 1 ≤ 128 ∧ (step.input 1).dim 1 % 8 = 0) := by
  unfold DragnnLookupUnrolled.Supports DragnnLookupUnrolled.kMaxEmbeddingDim
    DragnnLookupUnrolled.kBlockSize
  split_ifs <;> simp <;> push_neg at * <;> tauto

/-! ### Behaviour of the concat kernel's emitted code -/

theorem concat_fold (step : Step) (l : List Nat) (off : Nat)
    (acc : List Nat) :
    (l.foldl (fun (st : Nat × List Nat) i =>
        (st.1 + (step.input i).size, st.2 ++ (step.input i).bytes))
      (off, acc)) =
      (off + (l.map (fun i => (step.input i).size)).sum,
       acc ++ (l.map (fun i => (step.input i).bytes)).flatten) := by
  induction l generalizing off acc with
  | nil => simp
  | cons a rest ih =>
    rw [List.foldl_cons, ih]
    simp [Nat.add_assoc]

theorem concat_generate_eq (step : Step) :
    DragnnConcat.Generate step =
      (if ((List.range (step.indegree - 1)).map
            (fun i => (step.input i).size)).sum = (step.output 0).size
       then some (((List.range (step.indegree - 1)).map
            (fun i => (step.input i).bytes)).flatten)
       else none) := by
  unfold DragnnConcat.Generate
  simp only [concat_fold]
  simp

/-! ### More getD plumbing -/

theorem zipWith_getD {α β γ : Type} (f : α → β → γ) (l1 : List α)
    (l2 : List β) (i : Nat) (d1 : α) (d2 : β) (d3 : γ)
    (h1 : i < l1.length) (h2 : i < l2.length) :
    (List.zipWith f l1 l2).getD i d3 = f (l1.getD i d1) (l2.getD i d2) := by
  rw [List.getD_eq_getElem _ _ (by rw [List.length_zipWith]; omega),
    List.getElem_zipWith, List.getD_eq_getElem _ _ h1,
    List.getD_eq_getElem _ _ h2]

theorem getD_replicate {α : Type} (n t : Nat) (a d : α) (h : t < n) :
    (List.replicate n a).getD t d = a := by
  rw [List.getD_eq_getElem _ _ (by simpa using h), List.getElem_replicate]

theorem unrolled_generate_def (M : List (List ℚ)) (dims : Nat)
    (features : List Int) :
    DragnnLookupUnrolled.Generate M dims features =
      (features.foldl
        (DragnnLookupUnrolled.featureStep (M.length - 1) M (dims / 8))
        (List.replicate (dims / 8) (List.replicate 8 (0 : ℚ)))).flatten := rfl

/-! ### The claims -/

/-- C1 (corrected): for the scalar lookup kernel `DragnnLookup`, for every
feature-id sequence whose values are valid row indices, `-1`, or values
below `-1`, the emitted code resolves each id exactly as claimed (`-1` →
the trailing OOV row, `id < -1` skipped, `id ≥ 0` → the row at that index)
and adds each resolved row element-wise into the output; but it does NOT
first zero the output vector: the final output equals the output's initial
contents plus the elementwise sum of the resolved rows (hence equals that
sum precisely when the output buffer starts out zeroed). -/
theorem C1_scalar_lookup_accumulates (M : List (List ℚ)) (dims : Nat)
    (features : List Int) (out : List ℚ) (hout : out.length = dims)
    (hM : 0 < M.length)
    (hvalid : ∀ id ∈ features, 0 ≤ id → id.toNat < M.length)
    (j : Nat) (hj : j < dims) :
    (DragnnLookup.Generate M dims features out).getD j 0 =
      out.getD j 0 + ((resolvedRows (M.length - 1) features).map
        (fun r => (M.getD r []).getD j 0)).sum :=
  lookup_generate_getD M dims features out j hj hout

/-- C1 witness: with embedding matrix `[[5],[7]]` (one real row plus the
OOV row), feature sequence `[0]` and initial output `[1]`, the emitted
code produces `1 + 5 = 6`. -/
theorem C1_scalar_lookup_accumulates_witness :
    (DragnnLookup.Generate [[(5 : ℚ)], [(7 : ℚ)]] 1 [0] [(1 : ℚ)]).getD 0 0 =
      ([(1 : ℚ)]).getD 0 0 +
        ((resolvedRows (([[(5 : ℚ)], [(7 : ℚ)]] : List (List ℚ)).length - 1)
            [0]).map
          (fun r => (([[(5 : ℚ)], [(7 : ℚ)]] : List (List ℚ)).getD r
            []).getD 0 0)).sum :=
  C1_scalar_lookup_accumulates [[(5 : ℚ)], [(7 : ℚ)]] 1 [0] [(1 : ℚ)] rfl
    (by decide) (by decide) 0 (by decide)

/-- C1 counterexample: the claim as stated says the emitted code first
zeroes the output vector, so the final output would equal the elementwise
sum of the resolved rows alone.  With embedding matrix `[[5],[7]]`,
feature sequence `[0]` (a valid row index) and output buffer holding `[1]`
when the generated code runs, the emitted code produces `6`, not the
claimed resolved-row sum `5`: there is no zeroing instruction in
`DragnnLookup::Generate`. -/
theorem C1_counterexample :
    (DragnnLookup.Generate [[(5 : ℚ)], [(7 : ℚ)]] 1 [0] [(1 : ℚ)]).getD 0 0 ≠
      ((resolvedRows (([[(5 : ℚ)], [(7 : ℚ)]] : List (List ℚ)).length - 1)
          [0]).map
        (fun r => (([[(5 : ℚ)], [(7 : ℚ)]] : List (List ℚ)).getD r
          []).getD 0 0)).sum := by
  simp [DragnnLookup.Generate, DragnnLookup.featureStep, addRowInto,
    rangeUpdate, setStep, resolvedRows, List.range_succ]

/-- C2 (confirmed): on every input satisfying the unrolled kernel's extra
applicability conditions (embedding dimension a multiple of the block
width 8 and at most 128), the SIMD-unrolled kernel and the scalar kernel
accumulate exactly the same resolved embedding-row addends, so in exact
(rational) arithmetic — i.e. up to floating-point summation order — the
unrolled result equals the scalar result on a zero-initialized output. -/
theorem C2_unrolled_equals_scalar (M : List (List ℚ)) (dims : Nat)
    (features : List Int) (h8 : dims % 8 = 0) (hmax : dims ≤ 128) :
    DragnnLookupUnrolled.Generate M dims features =
      DragnnLookup.Generate M dims features (List.replicate dims 0) := by
  have hdb : 8 * (dims / 8) = dims := by omega
  have hinit : ∀ t < (List.replicate (dims / 8)
      (List.replicate 8 (0 : ℚ))).length,
      (((List.replicate (dims / 8) (List.replicate 8 (0 : ℚ))).getD t
        []).length = 8) := by
    intro t ht
    rw [List.length_replicate] at ht
    rw [getD_replicate _ _ _ _ ht]
    simp
  have hfoldlen : (features.foldl
      (DragnnLookupUnrolled.featureStep (M.length - 1) M (dims / 8))
      (List.replicate (dims / 8) (List.replicate 8 (0 : ℚ)))).length
        = dims / 8 := by
    rw [unrolled_fold_length]
    simp
  have hfoldbl := unrolled_fold_blocklen (M.length - 1) M (dims / 8) features
    (List.replicate (dims / 8) (List.replicate 8 (0 : ℚ))) hinit
  have hLlen : (DragnnLookupUnrolled.Generate M dims features).length
      = dims := by
    rw [unrolled_generate_def, flatten_length_uniform _ hfoldbl, hfoldlen]
    omega
  have hRlen : (DragnnLookup.Generate M dims features
      (List.replicate dims 0)).length = dims := by
    rw [lookup_generate_length]
    simp
  apply List.ext_getElem (by rw [hLlen, hRlen])
  intro j hjL hjR
  have hj : j < dims := by rw [hLlen] at hjL; exact hjL
  rw [← List.getD_eq_getElem _ (0 : ℚ) hjL, ← List.getD_eq_getElem _ (0 : ℚ) hjR]
  rw [lookup_generate_getD M dims features _ j hj (by simp)]
  rw [getD_replicate _ _ _ _ hj, zero_add]
  rw [unrolled_generate_def, flatten_getD_uniform _ hfoldbl j
    (by rw [hfoldlen]; omega)]
  rw [unrolled_fold_getD (M.length - 1) M (dims / 8) features _ (j / 8)
    (j % 8) (by omega) (by omega) (by simp) hinit]
  rw [getD_replicate _ _ _ _ (by omega : j / 8 < dims / 8)]
  rw [getD_replicate _ _ _ _ (by omega : j % 8 < 8), zero_add]
  have hjj : j / 8 * 8 + j % 8 = j := by omega
  simp only [hjj]

/-- C2 witness: a concrete 2-row, 8-column embedding matrix with feature
sequence `[0, -1, -7]` (one valid row, one OOV, one skipped id): both
kernels produce the same output. -/
theorem C2_unrolled_equals_scalar_witness :
    DragnnLookupUnrolled.Generate
        [[(1 : ℚ), 2, 3, 4, 5, 6, 7, 8], [(10 : ℚ), 20, 30, 40, 50, 60, 70, 80]]
        8 [0, -1, -7] =
      DragnnLookup.Generate
        [[(1 : ℚ), 2, 3, 4, 5, 6, 7, 8], [(10 : ℚ), 20, 30, 40, 50, 60, 70, 80]]
        8 [0, -1, -7] (List.replicate 8 0) :=
  C2_unrolled_equals_scalar
    [[(1 : ℚ), 2, 3, 4, 5, 6, 7, 8], [(10 : ℚ), 20, 30, 40, 50, 60, 70, 80]]
    8 [0, -1, -7] (by decide) (by decide)

/-- C3 (confirmed): for the zero-copy single-feature kernel
`DragnnLookupSingle`, for a scalar feature id `f` that is a row index or
`-1`, the value stored into the output slot is
`base + rowIndex(f) * rowStride` with `rowIndex(f) = f` for `f ≥ 0` and
`rowIndex(-1) = M->dim(0) - 1` (the trailing OOV row); the generated code
moves no embedding bytes (its only effect is this single stored address),
and `Adjust` marks the output as a reference tensor linked to the
embedding matrix (input slot 1). -/
theorem C3_lookup_single_zero_copy (step : Step) (mBase mStride fval : Int)
    (href : (step.input 0).ref = false) (hval : 0 ≤ fval ∨ fval = -1)
    (hout : 0 < step.outputs.length) (hin : 1 < step.inputs.length) :
    (0 ≤ fval →
      DragnnLookupSingle.Generate step mBase mStride fval =
        some (mBase + fval * mStride)) ∧
    (fval = -1 →
      DragnnLookupSingle.Generate step mBase mStride fval =
        some (mBase + (((step.input 1).dim 0 : Int) - 1) * mStride)) ∧
    ((DragnnLookupSingle.Adjust step).output 0).ref = true ∧
    ((DragnnLookupSingle.Adjust step).output 0).link = some 1 := by
  refine ⟨?_, ?_, ?_, ?_⟩
  · intro h0
    simp only [DragnnLookupSingle.Generate, href, Bool.false_eq_true,
      if_false]
    rw [if_neg (by omega)]
    congr 1
    ring
  · intro hm1
    simp only [DragnnLookupSingle.Generate, href, Bool.false_eq_true,
      if_false]
    rw [if_pos (by omega)]
    congr 1
    ring
  · unfold DragnnLookupSingle.Adjust
    rw [updateInput_output, updateOutput_output_self _ _ _ hout]
  · unfold DragnnLookupSingle.Adjust
    rw [updateInput_output, updateOutput_output_self _ _ _ hout]

/-- C3 witness: with a concrete two-input/one-output step whose feature
tensor is materialized (not a reference), base address 100, row stride 8
and feature id 1, the stored output value is `100 + 1 * 8`. -/
theorem C3_lookup_single_zero_copy_witness :
    DragnnLookupSingle.Generate (Step.mk [t0, t0] [t0]) 100 8 1 =
      some (100 + 1 * 8) :=
  (C3_lookup_single_zero_copy (Step.mk [t0, t0] [t0]) 100 8 1 rfl
    (Or.inl (by omega)) (by decide) (by decide)).1 (by omega)

/-- C5 (confirmed): `DragnnLookupUnrolled::Supports` returns true exactly
when AVX is available, the scalar kernel's arity/type/shape checks pass,
and the embedding dimension is a multiple of the block width 8 and at most
`8 * 16 = 128`; and its `Adjust` requests a minimum alignment of 32 bytes
(the block width in bytes) for both the embedding matrix and the output
vector. -/
theorem C5_unrolled_supports_adjust (avx : Bool) (step : Step) :
    DragnnLookupUnrolled.Supports avx step =
      (avx && DragnnLookup.Supports step &&
       decide ((step.input 1).dim 1 % 8 = 0) &&
       decide ((step.input 1).dim 1 ≤ 128)) ∧
    (1 < step.inputs.length →
      32 ≤ ((DragnnLookupUnrolled.Adjust step).input 1).minAlign) ∧
    (0 < step.outputs.length →
      32 ≤ ((DragnnLookupUnrolled.Adjust step).output 0).minAlign) := by
  refine ⟨?_, ?_, ?_⟩
  · rw [Bool.eq_iff_iff]
    simp only [Bool.and_eq_true, decide_eq_true_eq]
    rw [unrolled_supports_iff, lookup_supports_iff]
    tauto
  · intro hin
    unfold DragnnLookupUnrolled.Adjust
    rw [updateInput_input_self _ _ _ (by
      rw [updateOutput_inputs_length, updateInput_inputs_length,
        updateInput_inputs_length]
      exact hin)]
    rw [updateOutput_input]
    rw [updateInput_input_self _ _ _ (by
      rw [updateInput_inputs_length]
      exact hin)]
    rw [updateInput_input_self _ _ _ hin]
    unfold Tensor.setRequiredOrder Tensor.setMiniumAlignment
      DragnnLookupUnrolled.kBlockSize
    exact le_trans (by norm_num) (le_max_right _ _)
  · intro hout
    unfold DragnnLookupUnrolled.Adjust
    rw [updateInput_output,
      updateOutput_output_self _ _ _ (by
        rw [updateInput_outputs_length, updateInput_outputs_length]
        exact hout)]
    unfold Tensor.setMiniumAlignment DragnnLookupUnrolled.kBlockSize
    exact le_trans (by norm_num) (le_max_right _ _)

/-- C5 witness: on a concrete step with two inputs and one output, the
adjusted embedding matrix's minimum-alignment request is at least 32. -/
theorem C5_unrolled_supports_adjust_witness :
    32 ≤ ((DragnnLookupUnrolled.Adjust (Step.mk [t0, t0] [t0])).input
      1).minAlign :=
  (C5_unrolled_supports_adjust true (Step.mk [t0, t0] [t0])).2.1 (by decide)

/-- C8 (confirmed): `DragnnLookupSingle::Generate` aborts fatally
(`CHECK(!f->ref())`, modelled by `none`) exactly when the feature-id input
tensor is itself a reference tensor; when the feature input is a
materialized scalar the fatal branch is unreachable and emission
produces the stored address. -/
theorem C8_lookup_single_ref_check (step : Step) (mBase mStride fval : Int) :
    DragnnLookupSingle.Generate step mBase mStride fval = none ↔
      (step.input 0).ref = true := by
  unfold DragnnLookupSingle.Generate
  by_cases h : (step.input 0).ref
  · simp [h]
  · simp [h]

/-- C4 (corrected): `DragnnCollect` applicability requires 2 inputs and 1
output, an `int32` feature matrix shaped `1 × batch` (NOT `batch × 1`:
`f->dim(0)` must be 1 and `f->dim(1)` must equal the output row count), a
rank-2 float embedding matrix, and a float output whose column count is
the embedding dimension plus one; per batch row, an id `≥ 0` copies the
embedding row verbatim into the first `dims` columns leaving the trailing
indicator untouched, id `= -1` sets only the trailing indicator column to
`1.0`, and any other negative id writes nothing. -/
theorem C4_collect_amended :
    (∀ step : Step, DragnnCollect.Supports step = true ↔
      (step.indegree = 2 ∧ step.outdegree = 1 ∧
       (step.input 0).type = DType.DT_INT32 ∧
       (step.input 1).type = DType.DT_FLOAT ∧ (step.input 1).rank = 2 ∧
       (step.output 0).type = DType.DT_FLOAT ∧ (step.output 0).rank = 2 ∧
       (step.input 0).dim 0 = 1 ∧
       (step.input 0).dim 1 = (step.output 0).dim 0 ∧
       (step.output 0).dim 1 = (step.input 1).dim 1 + 1)) ∧
    (∀ (M : List (List ℚ)) (dims : Nat) (ids : List Int)
        (outRows : List (List ℚ)) (i : Nat),
      i < ids.length → outRows.length = ids.length →
      (outRows.getD i []).length = dims + 1 →
      ((0 ≤ ids.getD i 0 →
         (∀ j < dims,
           ((DragnnCollect.Generate M dims ids outRows).getD i []).getD j 0 =
             (M.getD (ids.getD i 0).toNat []).getD j 0) ∧
         ((DragnnCollect.Generate M dims ids outRows).getD i []).getD dims 0
           = (outRows.getD i []).getD dims 0) ∧
       (ids.getD i 0 = -1 →
         (DragnnCollect.Generate M dims ids outRows).getD i [] =
           (outRows.getD i []).set dims 1) ∧
       (ids.getD i 0 < -1 →
         (DragnnCollect.Generate M dims ids outRows).getD i [] =
           outRows.getD i []))) := by
  refine ⟨collect_supports_iff, ?_⟩
  intro M dims ids outRows i hi hlen hrow
  have hG : (DragnnCollect.Generate M dims ids outRows).getD i [] =
      DragnnCollect.rowStep M dims (outRows.getD i []) (ids.getD i 0) := by
    unfold DragnnCollect.Generate
    exact zipWith_getD _ ids outRows i 0 [] [] hi (by omega)
  refine ⟨?_, ?_, ?_⟩
  · intro h0
    constructor
    · intro j hj
      rw [hG]
      unfold DragnnCollect.rowStep
      rw [if_pos h0, rangeUpdate_getD, if_pos ⟨hj, by omega⟩]
    · rw [hG]
      unfold DragnnCollect.rowStep
      rw [if_pos h0, rangeUpdate_getD, if_neg (by omega)]
  · intro h1
    rw [hG]
    unfold DragnnCollect.rowStep
    rw [if_neg (by omega), if_pos h1]
  · intro h2
    rw [hG]
    unfold DragnnCollect.rowStep
    rw [if_neg (by omega), if_neg (by omega)]

/-- C4 witness: with embedding matrix `[[2,3],[4,6]]`, a single feature id
`0` and an output row starting as `[9,9,9]`, column 0 of the collected row
equals the embedding row's column 0. -/
theorem C4_collect_amended_witness :
    ((DragnnCollect.Generate [[(2 : ℚ), 3], [4, 6]] 2 [0]
        [[(9 : ℚ), 9, 9]]).getD 0 []).getD 0 0 =
      (([[(2 : ℚ), 3], [4, 6]] : List (List ℚ)).getD
        (([0] : List Int).getD 0 0).toNat []).getD 0 0 :=
  ((C4_collect_amended.2 [[(2 : ℚ), 3], [4, 6]] 2 [0] [[(9 : ℚ), 9, 9]] 0
    (by decide) (by decide) (by decide)).1 (by decide)).1 0 (by decide)

/-- C4 counterexample: the claim requires the feature-id matrix to be
shaped `batch × 1`.  This concrete step has the feature matrix shaped
`2 × 1` (`batch × 1` with batch 2 equal to the output row count), an
`int32` feature input, a rank-2 float embedding matrix `3 × 2`, and a
float output `2 × 3` with one extra indicator column — every condition of
the claim — yet `Supports` rejects it, because the code instead demands
`f->dim(0) == 1` and `f->dim(1) == R->dim(0)` (a `1 × batch` shape). -/
theorem C4_counterexample :
    DragnnCollect.Supports (Step.mk
      [{ t0 with type := DType.DT_INT32, dims := [2, 1] },
       { t0 with type := DType.DT_FLOAT, dims := [3, 2] }]
      [{ t0 with type := DType.DT_FLOAT, dims := [2, 3] }]) = false ∧
    ((Step.mk
      [{ t0 with type := DType.DT_INT32, dims := [2, 1] },
       { t0 with type := DType.DT_FLOAT, dims := [3, 2] }]
      [{ t0 with type := DType.DT_FLOAT, dims := [2, 3] }]).input 0).dims =
      [2, 1] ∧
    ((Step.mk
      [{ t0 with type := DType.DT_INT32, dims := [2, 1] },
       { t0 with type := DType.DT_FLOAT, dims := [3, 2] }]
      [{ t0 with type := DType.DT_FLOAT, dims := [2, 3] }]).output 0).dim 0 =
      2 ∧
    ((Step.mk
      [{ t0 with type := DType.DT_INT32, dims := [2, 1] },
       { t0 with type := DType.DT_FLOAT, dims := [3, 2] }]
      [{ t0 with type := DType.DT_FLOAT, dims := [2, 3] }]).output 0).dim 1 =
      ((Step.mk
        [{ t0 with type := DType.DT_INT32, dims := [2, 1] },
         { t0 with type := DType.DT_FLOAT, dims := [3, 2] }]
        [{ t0 with type := DType.DT_FLOAT, dims := [2, 3] }]).input 1).dim 1
        + 1 := by
  refine ⟨by decide, rfl, rfl, rfl⟩

/-- C6 (corrected): `DragnnConcat` applicability requires at least ONE
data input plus the trailing scalar axis input with value 1 (the code
checks `indegree >= 2` in total, not two data inputs as claimed), and any
other axis value makes `Supports` return false; the emitted code copies
each data input's bytes, in input order, into successive byte ranges of
the output starting at offset 0, and the fatal `CHECK_EQ` requires the
total copied size to equal the output's declared byte size. -/
theorem C6_concat_amended (step : Step) :
    (DragnnConcat.Supports step = true ↔
      (2 ≤ step.indegree ∧ step.outdegree = 1 ∧
       (step.input (step.indegree - 1)).cval = 1)) ∧
    (((List.range (step.indegree - 1)).map
        (fun i => (step.input i).size)).sum = (step.output 0).size →
      DragnnConcat.Generate step =
        some (((List.range (step.indegree - 1)).map
          (fun i => (step.input i).bytes)).flatten)) ∧
    (((List.range (step.indegree - 1)).map
        (fun i => (step.input i).size)).sum ≠ (step.output 0).size →
      DragnnConcat.Generate step = none) := by
  refine ⟨concat_supports_iff step, ?_, ?_⟩
  · intro h
    rw [concat_generate_eq, if_pos h]
  · intro h
    rw [concat_generate_eq, if_neg h]

/-- C6 witness: two data inputs with bytes `[1,2]` and `[3]` plus an axis
input of value 1; the output declares 3 bytes and the generated copy
produces the ordered concatenation `[1,2,3]`. -/
theorem C6_concat_amended_witness :
    DragnnConcat.Generate (Step.mk
      [{ t0 with bytes := [1, 2], declSize := 2 },
       { t0 with bytes := [3], declSize := 1 },
       { t0 with cval := 1 }]
      [{ t0 with declSize := 3 }]) = some [1, 2, 3] := by
  rw [(C6_concat_amended (Step.mk
    [{ t0 with bytes := [1, 2], declSize := 2 },
     { t0 with bytes := [3], declSize := 1 },
     { t0 with cval := 1 }]
    [{ t0 with declSize := 3 }])).2.1 (by decide)]
  decide

/-- C6 counterexample: the claim requires at least 2 data inputs, but this
concrete step with exactly ONE data input plus the axis input (total
indegree 2, axis value 1) is accepted by `Supports`. -/
theorem C6_counterexample :
    DragnnConcat.Supports (Step.mk [t0, { t0 with cval := 1 }] [t0]) = true ∧
    (Step.mk [t0, { t0 with cval := 1 }] [t0]).indegree - 1 = 1 := by
  exact ⟨by decide, rfl⟩

/-- C7 (corrected): `NoOpReshape` requires TWO inputs — the data tensor
and the reshape's shape operand — plus one output (the claim's "one
input/output pair" matches only the compared pair `input(0)/output(0)`,
not the step arity); applicability further requires identical element
type, identical element count, and that the data input has exactly one
consumer.  When selected, `Adjust` copies the input's reference flag to
the output and fatally requires the in-place aliasing grant, and
`Generate` emits no instructions, only fatally checking that input and
output share storage. -/
theorem C7_noop_reshape_amended (step : Step)
    (hout : 0 < step.outputs.length) :
    (NoOpReshape.Supports step = true ↔
      (step.indegree = 2 ∧ step.outdegree = 1 ∧
       (step.input 0).type = (step.output 0).type ∧
       (step.input 0).elements = (step.output 0).elements ∧
       (step.input 0).consumers = 1)) ∧
    (NoOpReshape.Adjust true step).map (fun s => (s.output 0).ref) =
      some (step.input 0).ref ∧
    NoOpReshape.Adjust false step = none ∧
    NoOpReshape.Generate true step = some [] ∧
    NoOpReshape.Generate false step = none := by
  refine ⟨noop_supports_iff step, ?_, rfl, rfl, rfl⟩
  show some ((step.updateOutput 0 _).output 0).ref = _
  rw [updateOutput_output_self _ _ _ hout]

/-- C7 witness: on a concrete one-output step, a granted in-place request
makes `Adjust` copy the input's reference flag to the output. -/
theorem C7_noop_reshape_amended_witness :
    (NoOpReshape.Adjust true (Step.mk [t0, t0] [t0])).map
      (fun s => (s.output 0).ref) =
      some ((Step.mk [t0, t0] [t0]).input 0).ref :=
  (C7_noop_reshape_amended (Step.mk [t0, t0] [t0]) (by decide)).2.1

/-- C7 counterexample: a step with exactly ONE input and one output whose
input/output pair has identical type and element count and whose input
has exactly one consumer — the claim's applicability conditions — is
rejected by `Supports`, because the code requires `indegree() == 2` (the
reshape carries a second, shape operand input). -/
theorem C7_counterexample :
    NoOpReshape.Supports
      (Step.mk [{ t0 with consumers := 1 }] [t0]) = false ∧
    (Step.mk [{ t0 with consumers := 1 }] [t0]).indegree = 1 ∧
    (Step.mk [{ t0 with consumers := 1 }] [t0]).outdegree = 1 ∧
    ((Step.mk [{ t0 with consumers := 1 }] [t0]).input 0).type =
      ((Step.mk [{ t0 with consumers := 1 }] [t0]).output 0).type ∧
    ((Step.mk [{ t0 with consumers := 1 }] [t0]).input 0).elements =
      ((Step.mk [{ t0 with consumers := 1 }] [t0]).output 0).elements ∧
    ((Step.mk [{ t0 with consumers := 1 }] [t0]).input 0).consumers = 1 := by
  refine ⟨by decide, rfl, rfl, rfl, rfl, rfl⟩

/-- C9 (confirmed): `DragnnTyper::InferTypes` sets the single output of a
`DragnnEmbeddingInitializer` operation to a scalar `int32` (type
`DT_INT32`, shape cleared), returns `false` (never requests another
inference pass) for every operation, and mutates nothing for operations
of any other type. -/
theorem C9_typer_infer_types (op : FlowOperation) :
    (DragnnTyper.InferTypes op).2 = false ∧
    (op.type = "DragnnEmbeddingInitializer" → op.outputs.length = 1 →
      ((DragnnTyper.InferTypes op).1).outputs =
        [{ vtype := DType.DT_INT32, shape := [] }]) ∧
    (op.type ≠ "DragnnEmbeddingInitializer" →
      (DragnnTyper.InferTypes op).1 = op) := by
  refine ⟨?_, ?_, ?_⟩
  · unfold DragnnTyper.InferTypes
    split_ifs <;> rfl
  · intro ht hl
    unfold DragnnTyper.InferTypes
    rw [if_pos ht, if_pos hl]
    obtain ⟨a, ha⟩ := List.length_eq_one.mp hl
    simp [ha]
  · intro ht
    unfold DragnnTyper.InferTypes
    rw [if_neg ht]

/-- C9 witness: a concrete initializer operation with one declared output
is retyped to a scalar `int32` and the hook reports `false`. -/
theorem C9_typer_infer_types_witness :
    (DragnnTyper.InferTypes
      (FlowOperation.mk "DragnnEmbeddingInitializer" [fv0])).2 = false ∧
    ((DragnnTyper.InferTypes
      (FlowOperation.mk "DragnnEmbeddingInitializer" [fv0])).1).outputs =
      [{ vtype := DType.DT_INT32, shape := [] }] :=
  ⟨(C9_typer_infer_types
      (FlowOperation.mk "DragnnEmbeddingInitializer" [fv0])).1,
   (C9_typer_infer_types
      (FlowOperation.mk "DragnnEmbeddingInitializer" [fv0])).2.1 rfl rfl⟩

/-- C10 (confirmed): the initializer kernel accepts every step
unconditionally and emits no instructions, and — being the first (and
only) registered kernel for operation `DragnnEmbeddingInitializer` — it
is the kernel the registry binds to every step carrying that operation
name. -/
theorem C10_initializer_always_selected (avx : Bool) (step : Step) :
    DragnnInitializer.Supports step = true ∧
    DragnnInitializer.Generate step = [] ∧
    (selectKernel (RegisterDragnnKernels avx) "DragnnEmbeddingInitializer"
        step).map KernelEntry.kname = some "DragnnInitializerDummy" := by
  refine ⟨rfl, rfl, ?_⟩
  unfold selectKernel RegisterDragnnKernels
  simp [List.find?, DragnnInitializer.Supports]

end Myelin
